import Mathlib

/-!
# ExportExcelVBA: a shallow embedding of `main.go`

The program picks an `.xlsm` file in a terminal list selector (`runTUI`) and
then drives Excel through OLE automation to write every non-empty VBA
component to a file (`exportVBA`).

Modelling conventions.

* The key handler installed by `runTUI` is a closure over the captured
  variable `cursor`; here it is a transition function on the selector state,
  and `runTUI` folds it over the key events the handler processes before
  `Run` returns.
* Go `int` is the 64-bit `int` of the Windows targets the program runs on, so
  `int(v.Val)` is the identity on the `int64` payload of a variant; integers
  are `Int`.
-/

namespace ExportExcelVBA

/-! ## Selector (`runTUI`, `main`) -/

/-- Entry of the candidate list built by `main`. -/
structure FileEntry where
  Name : String
  FullPath : String
deriving DecidableEq, Repr

/-- Key events told apart by the `switch event.Key()` of the handler. -/
inductive Key
  | up
  | down
  | enter
  | escape
  | other
deriving DecidableEq, Repr

/-- A key that only moves the cursor. -/
def Key.isMove : Key → Bool
  | .up => true
  | .down => true
  | _ => false

/-- Variables the handler closure works on: the captured `cursor`, and
whether `app.Stop()` has been called. -/
structure Selector where
  cursor : Int
  stopped : Bool
deriving DecidableEq, Repr

/-- Body of the function passed to `SetInputCapture` (lines 84-102), for a
candidate list of length `len`. -/
def inputCapture (len : Int) (s : Selector) : Key → Selector
  | .up => if s.cursor > 0 then { s with cursor := s.cursor - 1 } else s
  | .down => if s.cursor < len - 1 then { s with cursor := s.cursor + 1 } else s
  | .enter => { s with stopped := true }
  | .escape => { cursor := -1, stopped := true }
  | .other => s

/-- State of the selector after the handler has processed `keys`, starting
from `cursor := 0`. -/
def handle (len : Int) (keys : List Key) : Selector :=
  keys.foldl (inputCapture len) { cursor := 0, stopped := false }

/-- Function `runTUI`: the value of `cursor` when `Run` has returned, `keys`
being the key events the handler processed until then.  (`Run` returning an
error ends the process and is not a result of `runTUI`.) -/
def runTUI (filesList : List FileEntry) (keys : List Key) : Int :=
  (handle filesList.length keys).cursor

/-- What `main` does with the candidate list (lines 41-62). -/
inductive Selection
  | noFiles
  | cancelled
  | selected (f : FileEntry)
  | indexOutOfRange
deriving DecidableEq, Repr

/-- Lines 41-50 of `main`: fatal on an empty list, otherwise run the selector
and index the list with a non-negative result. -/
def mainSelect (filesList : List FileEntry) (keys : List Key) : Selection :=
  if filesList.length = 0 then .noFiles
  else
    let selectedIdx := runTUI filesList keys
    if selectedIdx ≥ 0 then
      match filesList.get? selectedIdx.toNat with
      | some selected => .selected selected
      | none => .indexOutOfRange
    else .cancelled

/-! ## Extension of a component kind (`exportVBA`, lines 189-201) -/

/-- The `switch typeVal` that sets `ext`. -/
def extOf (typeVal : Int) : String :=
  if typeVal = 1 then ".bas.vbs"
  else if typeVal = 2 then ".cls.vbs"
  else if typeVal = 3 then ".frm.vbs"
  else ".vbs"

/-! ## Automation session (`exportVBA`)

Excel, go-ole and the file system are outside the program.  A `Host` fixes the
outcome of every call the program can make to them; `exportVBA` turns a host
into the sequence of calls the program issues.  A successful call that yields
an interface pointer is recorded through the handle it is stored in.
-/

/-- Interface pointers held by `exportVBA`, named after the variables that
hold them; `comp i` and `codeMod i` are the ones of loop iteration `i`. -/
inductive Handle
  | excelObj
  | excelDisp
  | workbooks
  | wb
  | vbproj
  | components
  | comp (i : Int)
  | codeMod (i : Int)
deriving DecidableEq, Repr

/-- Argument values passed to automation calls. -/
inductive Arg
  | int (n : Int)
  | bool (b : Bool)
  | str (s : String)
deriving DecidableEq, Repr

/-- Calls issued by `exportVBA`, in program order; `coUninit` is
`ole.CoUninitialize()`. -/
inductive Event
  | lockOSThread
  | unlockOSThread
  | coInitialize
  | coUninit
  | createObject (progID : String)
  | queryInterface (h : Handle)
  | putProperty (h : Handle) (name : String) (v : Arg)
  | getProperty (h : Handle) (name : String) (args : List Arg)
  | callMethod (h : Handle) (name : String) (args : List Arg)
  | release (h : Handle)
  | writeFile (filename : String) (data : List UInt8) (perm : Nat)
  | println (msg : String)
  | logPrint (msg : String)
  | logFatal (msg : String)
deriving DecidableEq, Repr

/-- Outcome of an automation call whose result the program tests with
`err != nil || raw == nil`. -/
inductive OleResult (α : Type)
  | error
  | null
  | value (a : α)
deriving DecidableEq, Repr

/-- Outcomes of the calls of one loop iteration.  A call tested with
`err != nil` only is `none` on error (go-ole returns a variant whenever the
error is nil). -/
structure ItemScript where
  item : OleResult Unit
  name : Option String
  type : Option Int
  codeModule : OleResult Unit
  countOfLines : Option Int
  lines : OleResult String
  write : Bool

/-- Outcomes of all calls `exportVBA` can make. -/
structure Host where
  coInitialize : Bool
  createObject : Bool
  queryInterface : Bool
  workbooks : OleResult Unit
  openWorkbook : OleResult Unit
  vbProject : OleResult Unit
  vbComponents : OleResult Unit
  count : Option Int
  item : Int → ItemScript

/-- Conversion `[]byte(code)`: the UTF-8 bytes of the string. -/
def goBytes (code : String) : List UInt8 :=
  code.toUTF8.data.toList

/-- Whether an `err != nil || raw == nil` test lets the program go on. -/
def OleResult.ok {α : Type} : OleResult α → Bool
  | .value _ => true
  | _ => false

/-- Body of the `for` loop (lines 168-247) at index `i`, given the outcomes
`s` of its calls; `join` is `filepath.Join`. -/
def iterationOf (s : ItemScript) (join : String → String → String)
    (out_path : String) (i : Int) : List Event :=
  .callMethod .components "Item" [.int i] ::
  match s.item with
  | .error => [.logPrint "Item(%d)取得失敗: %v"]
  | .null => [.logPrint "Item(%d)取得失敗: %v"]
  | .value _ =>
    .getProperty (.comp i) "Name" [] ::
    match s.name with
    | none => [.logPrint "モジュール名取得失敗:", .release (.comp i)]
    | some name =>
      .getProperty (.comp i) "Type" [] ::
      match s.type with
      | none => [.release (.comp i)]
      | some typeVal =>
        let ext := extOf typeVal
        .getProperty (.comp i) "CodeModule" [] ::
        match s.codeModule with
        | .error => [.logPrint "CodeModule取得失敗: %v", .release (.comp i)]
        | .null => [.logPrint "CodeModule取得失敗: %v", .release (.comp i)]
        | .value _ =>
          .getProperty (.codeMod i) "CountOfLines" [] ::
          match s.countOfLines with
          | none =>
            [.logPrint "CountOfLines取得失敗: %v", .release (.codeMod i), .release (.comp i)]
          | some lines =>
            if lines = 0 then [.release (.codeMod i), .release (.comp i)]
            else
              .getProperty (.codeMod i) "Lines" [.int 1, .int lines] ::
              match s.lines with
              | .error =>
                [.logPrint "Lines取得失敗 (%s): %v", .release (.codeMod i), .release (.comp i)]
              | .null =>
                [.logPrint "Lines取得失敗 (%s): %v", .release (.codeMod i), .release (.comp i)]
              | .value code =>
                let filename := join out_path (name ++ ext)
                .writeFile filename (goBytes code) 0o644 ::
                if s.write then
                  [.println ("出力: " ++ filename), .release (.codeMod i), .release (.comp i)]
                else
                  [.logPrint "書き込み失敗: %v", .release (.codeMod i), .release (.comp i)]

/-- Loop body at index `i` against a host. -/
def iteration (host : Host) (join : String → String → String)
    (out_path : String) (i : Int) : List Event :=
  iterationOf (host.item i) join out_path i

/-- The loop `for i := ...; i <= count; i++` entered with the given `i`; the
first argument bounds the number of iterations still to run. -/
def loopFrom (host : Host) (join : String → String → String) (out_path : String)
    (count : Int) : Nat → Int → List Event
  | 0, _ => []
  | fuel + 1, i =>
    if i ≤ count then
      iteration host join out_path i ++ loopFrom host join out_path count fuel (i + 1)
    else []

/-- The loop of lines 167-248, `for i := 1; i <= count; i++`. -/
def loop (host : Host) (join : String → String → String) (out_path : String)
    (count : Int) : List Event :=
  loopFrom host join out_path count count.toNat 1

/-- Result of a run: the calls issued, and whether the function returned
(`false`: `log.Fatal` ended the process, deferred calls not run). -/
structure Run where
  trace : List Event
  returned : Bool
deriving DecidableEq, Repr

/-- The four property writes of lines 131-134; their errors are ignored. -/
def configure : List Event :=
  [.putProperty .excelDisp "Visible" (.bool false),
   .putProperty .excelDisp "EnableEvents" (.bool false),
   .putProperty .excelDisp "DisplayAlerts" (.bool false),
   .putProperty .excelDisp "AutomationSecurity" (.int 3)]

/-- The two calls after the loop (lines 250-251). -/
def closing : List Event :=
  [.callMethod .wb "Close" [.bool false], .callMethod .excelDisp "Quit" []]

/-- Deferred calls run on return, last registered first (lines 147, 129, 123,
117, 112). -/
def deferred : List Event :=
  [.release .wb, .release .excelDisp, .release .excelObj, .coUninit, .unlockOSThread]

/-- Function `exportVBA` (lines 110-252). -/
def exportVBA (host : Host) (join : String → String → String)
    (path out_path : String) : Run :=
  let t := [Event.lockOSThread, .coInitialize]
  if host.coInitialize = false then ⟨t ++ [.logFatal "OLE初期化失敗（exportVBA）:"], false⟩
  else
  let t := t ++ [.createObject "Excel.Application"]
  if host.createObject = false then ⟨t ++ [.logFatal "Excel.Application 作成失敗:"], false⟩
  else
  let t := t ++ [.queryInterface .excelObj]
  if host.queryInterface = false then ⟨t ++ [.logFatal "QueryInterface 失敗:"], false⟩
  else
  let t := t ++ configure ++ [.getProperty .excelDisp "Workbooks" []]
  if host.workbooks.ok = false then ⟨t ++ [.logFatal "Workbooks取得失敗:"], false⟩
  else
  let t := t ++ [.callMethod .workbooks "Open" [.str path]]
  if host.openWorkbook.ok = false then ⟨t ++ [.logFatal "ファイルオープン失敗:"], false⟩
  else
  let t := t ++ [.getProperty .wb "VBProject" []]
  if host.vbProject.ok = false then ⟨t ++ [.logFatal "VBProject取得失敗:"], false⟩
  else
  let t := t ++ [.getProperty .vbproj "VBComponents" []]
  if host.vbComponents.ok = false then ⟨t ++ [.logFatal "VBComponents取得失敗:"], false⟩
  else
  let t := t ++ [.getProperty .components "Count" []]
  match host.count with
  | none => ⟨t ++ [.logFatal "Count取得失敗:"], false⟩
  | some count =>
    ⟨t ++ loop host join out_path count ++ closing ++ deferred, true⟩

/-! ## Paths and files

`filepath.Join` and `os.WriteFile` belong to the Go standard library.  The
embedding of `exportVBA` takes `filepath.Join` as a parameter; the model below
is used where a concrete path has to be computed.  It covers Windows paths
with an optional drive-letter volume: elements are joined with a backslash,
then cleaned lexically (separators collapsed, `.` dropped, `..` resolved).
-/

/-- Windows `os.IsPathSeparator`. -/
def isPathSeparator (c : Char) : Bool :=
  c = '\\' || c = '/'

/-- Path elements between separators. -/
def splitPath : List Char → List (List Char)
  | [] => [[]]
  | c :: cs =>
    match splitPath cs with
    | [] => [[]]
    | e :: es => if isPathSeparator c then [] :: e :: es else (c :: e) :: es

/-- One step of `Clean`: `acc` holds the elements kept so far, last first. -/
def cleanStep (rooted : Bool) (acc : List (List Char)) (e : List Char) : List (List Char) :=
  if e = [] ∨ e = ['.'] then acc
  else if e = ['.', '.'] then
    match acc with
    | [] => if rooted then [] else [e]
    | top :: rest => if top = ['.', '.'] then e :: acc else rest
  else e :: acc

/-- Elements written back with single backslashes. -/
def joinElems : List (List Char) → List Char
  | [] => []
  | [e] => e
  | e :: es => e ++ '\\' :: joinElems es

/-- Length of a drive-letter volume name (`C:`), else 0. -/
def volumeNameLen : List Char → Nat
  | _ :: ':' :: _ => 2
  | _ => 0

/-- Model of `filepath.Clean` on the characters of a path. -/
def cleanChars (originalPath : List Char) : List Char :=
  let volLen := volumeNameLen originalPath
  let vol := originalPath.take volLen
  let path := originalPath.drop volLen
  match path with
  | [] => originalPath ++ ['.']
  | c :: _ =>
    let rooted := isPathSeparator c
    let kept := ((splitPath path).foldl (cleanStep rooted) []).reverse
    let out := (if rooted then ['\\'] else []) ++ joinElems kept
    vol ++ (if out = [] then ['.'] else out)

/-- Characters of `filepath.Join(a, b)` before cleaning: empty elements are
ignored, no separator is added after a separator or after a colon. -/
def joinChars (a b : List Char) : List Char :=
  match a.getLast? with
  | none => b
  | some last =>
    if isPathSeparator last then a ++ b.dropWhile isPathSeparator
    else if last = ':' then a ++ b
    else if b = [] then a
    else a ++ '\\' :: b

/-- Model of `filepath.Join` with two elements. -/
def filepathJoin (a b : String) : String :=
  let joined := joinChars a.data b.data
  if joined = [] then "" else String.mk (cleanChars joined)

/-- Model of the files of the output directory: content by path. -/
abbrev Files := String → Option (List UInt8)

/-- Model of a successful `os.WriteFile`: the data becomes the whole content
of the file at that path. -/
def writeFile (fs : Files) (filename : String) (data : List UInt8) : Files :=
  fun p => if p = filename then some data else fs p

/-- Whether the call after an `os.WriteFile` is the `fmt.Println` of the
`err == nil` branch (line 238), that is, whether the write succeeded. -/
def writeSucceeded : List Event → Bool
  | .println _ :: _ => true
  | _ => false

/-- Files after the calls of a trace: a successful write replaces the content
at its path; `onFail` is the effect of a failed write, left open. -/
def filesAfter (onFail : Files → String → List UInt8 → Files) :
    Files → List Event → Files
  | fs, [] => fs
  | fs, e :: rest =>
    match e with
    | .writeFile filename data _ =>
      filesAfter onFail
        (if writeSucceeded rest then writeFile fs filename data else onFail fs filename data)
        rest
    | _ => filesAfter onFail fs rest

/-! ## Predicates on calls and sample hosts -/

/-- The call is an `os.WriteFile`. -/
def isWrite : Event → Bool
  | .writeFile _ _ _ => true
  | _ => false

/-- The call reads the property `Lines` (the text of a code module). -/
def isLinesRead : Event → Bool
  | .getProperty _ name _ => name == "Lines"
  | _ => false

/-- The call releases an interface pointer. -/
def isRelease : Event → Bool
  | .release _ => true
  | _ => false

/-- Calls that belong to a loop iteration: the fetch from the component
collection, calls on a component or code module, file writes and messages. -/
def itemLevel : Event → Bool
  | .callMethod .components _ _ => true
  | .getProperty (.comp _) _ _ => true
  | .getProperty (.codeMod _) _ _ => true
  | .release (.comp _) => true
  | .release (.codeMod _) => true
  | .writeFile _ _ _ => true
  | .println _ => true
  | .logPrint _ => true
  | _ => false

/-- Calls issued before the loop when no step is fatal (lines 111-161). -/
def opening (path : String) : List Event :=
  [.lockOSThread, .coInitialize, .createObject "Excel.Application",
   .queryInterface .excelObj] ++ configure ++
  [.getProperty .excelDisp "Workbooks" [], .callMethod .workbooks "Open" [.str path],
   .getProperty .wb "VBProject" [], .getProperty .vbproj "VBComponents" [],
   .getProperty .components "Count" []]

/-- Outcomes of an iteration in which every call succeeds. -/
def okItem (name : String) (typeVal lines : Int) (code : String) : ItemScript :=
  ⟨.value (), some name, some typeVal, .value (), some lines, .value code, true⟩

/-- A host on which every session-level call succeeds, with `count`
components described by `item`. -/
def okHost (count : Int) (item : Int → ItemScript) : Host :=
  ⟨true, true, true, .value (), .value (), .value (), .value (), some count, item⟩

/-- One component `Sheet1` with three lines of code whose `Type` read fails. -/
def hostKindFails : Host :=
  okHost 1 fun _ => { okItem "Sheet1" 100 3 "Sub A()\nEnd Sub\n" with type := none }

/-- A standard module and a class module, both named `Utils`. -/
def hostUtils : Host :=
  okHost 2 fun i => if i = 1 then okItem "Utils" 1 1 "a" else okItem "Utils" 2 1 "b"

/-- A document module (kind 100) and a designer (kind 11), both named
`Sheet1`. -/
def hostSheets : Host :=
  okHost 2 fun i => if i = 1 then okItem "Sheet1" 100 1 "a" else okItem "Sheet1" 11 1 "b"

/-- A workbook without components. -/
def hostEmpty : Host :=
  okHost 0 fun _ => okItem "" 0 0 ""

/-! ## Selector: cursor bounds -/

theorem inputCapture_move_bounds (len : Int) (s : Selector) (k : Key)
    (hk : k.isMove = true) (h0 : 0 ≤ s.cursor) (h1 : s.cursor ≤ len - 1) :
    0 ≤ (inputCapture len s k).cursor ∧ (inputCapture len s k).cursor ≤ len - 1 := by
  cases k <;> simp [Key.isMove] at hk <;> simp only [inputCapture] <;> split <;>
    constructor <;> (try simp) <;> omega

theorem foldl_move_bounds (len : Int) (keys : List Key) :
    ∀ s : Selector, (∀ k ∈ keys, k.isMove = true) → 0 ≤ s.cursor → s.cursor ≤ len - 1 →
      0 ≤ (keys.foldl (inputCapture len) s).cursor ∧
        (keys.foldl (inputCapture len) s).cursor ≤ len - 1 := by
  induction keys with
  | nil => intro s _ h0 h1; exact ⟨h0, h1⟩
  | cons k ks ih =>
    intro s hk h0 h1
    have hstep := inputCapture_move_bounds len s k (hk k (List.mem_cons_self _ _)) h0 h1
    exact ih _ (fun k' hk' => hk k' (List.mem_cons_of_mem _ hk')) hstep.1 hstep.2

theorem handle_append_enter (len : Int) (keys : List Key) :
    (handle len (keys ++ [.enter])).cursor = (handle len keys).cursor := by
  simp [handle, List.foldl_append, inputCapture]

/-- Claim C1: for every kind code the extension is given by the table:
`.bas.vbs` for 1, `.cls.vbs` for 2, `.frm.vbs` for 3 and `.vbs` for every
other value. -/
theorem extOf_table (t : Int) :
    (t = 1 ∧ extOf t = ".bas.vbs") ∨ (t = 2 ∧ extOf t = ".cls.vbs") ∨
      (t = 3 ∧ extOf t = ".frm.vbs") ∨ (t ≠ 1 ∧ t ≠ 2 ∧ t ≠ 3 ∧ extOf t = ".vbs") := by
  unfold extOf
  by_cases h1 : t = 1
  · simp [h1]
  · by_cases h2 : t = 2
    · simp [h2]
    · by_cases h3 : t = 3
      · simp [h3]
      · simp [h1, h2, h3]

/-- Claim C10: on a non-empty list, after any sequence of Up/Down keys the
cursor `c` lies in `0 .. len-1`, Up takes it to `max (c-1) 0`, Down to
`min (c+1) (len-1)`, and Enter then returns `c`, which `main` uses as an
in-range index of the list. -/
theorem cursor_in_range (filesList : List FileEntry) (keys : List Key)
    (hne : filesList ≠ []) (hmove : ∀ k ∈ keys, k.isMove = true) :
    0 ≤ runTUI filesList keys ∧ runTUI filesList keys ≤ (filesList.length : Int) - 1 ∧
      (∀ st, (inputCapture filesList.length ⟨runTUI filesList keys, st⟩ .up).cursor
        = max (runTUI filesList keys - 1) 0) ∧
      (∀ st, (inputCapture filesList.length ⟨runTUI filesList keys, st⟩ .down).cursor
        = min (runTUI filesList keys + 1) ((filesList.length : Int) - 1)) ∧
      runTUI filesList (keys ++ [.enter]) = runTUI filesList keys ∧
      ∃ f, filesList.get? (runTUI filesList keys).toNat = some f ∧
        mainSelect filesList (keys ++ [.enter]) = .selected f := by
  have hlen : 0 < filesList.length := List.length_pos.mpr hne
  have hb := foldl_move_bounds filesList.length keys ⟨0, false⟩ hmove (by simp)
    (by simp; omega)
  have henter : runTUI filesList (keys ++ [.enter]) = runTUI filesList keys :=
    handle_append_enter _ keys
  have h0 : 0 ≤ runTUI filesList keys := hb.1
  have h1 : runTUI filesList keys ≤ (filesList.length : Int) - 1 := hb.2
  refine ⟨h0, h1, ?_, ?_, henter, ?_⟩
  · intro st
    simp only [inputCapture]
    split <;> simp <;> omega
  · intro st
    simp only [inputCapture]
    split <;> simp <;> omega
  · have hlt : (runTUI filesList keys).toNat < filesList.length := by omega
    refine ⟨filesList.get ⟨_, hlt⟩, List.get?_eq_get hlt, ?_⟩
    unfold mainSelect
    rw [henter]
    simp only [List.get?_eq_get hlt]
    have : ¬ filesList.length = 0 := by omega
    simp [this, h0]

/-- Witness of `cursor_in_range`: two files, keys Down, Down, Up. -/
theorem cursor_in_range_witness :
    0 ≤ runTUI [⟨"a.xlsm", "C:\\a.xlsm"⟩, ⟨"b.xlsm", "C:\\b.xlsm"⟩] [.down, .down, .up] ∧
      ∃ f, [(⟨"a.xlsm", "C:\\a.xlsm"⟩ : FileEntry), ⟨"b.xlsm", "C:\\b.xlsm"⟩].get?
          (runTUI [⟨"a.xlsm", "C:\\a.xlsm"⟩, ⟨"b.xlsm", "C:\\b.xlsm"⟩]
            [.down, .down, .up]).toNat = some f ∧
        mainSelect [⟨"a.xlsm", "C:\\a.xlsm"⟩, ⟨"b.xlsm", "C:\\b.xlsm"⟩]
          ([.down, .down, .up] ++ [.enter]) = .selected f :=
  have h := cursor_in_range [⟨"a.xlsm", "C:\\a.xlsm"⟩, ⟨"b.xlsm", "C:\\b.xlsm"⟩]
    [.down, .down, .up] (by decide) (by decide)
  ⟨h.1, h.2.2.2.2.2⟩

/-- Claim C9, evaluated: with two candidates, a Down processed after Escape
turns the cancel marker -1 into 0, which `main` takes as a selection; a Down
processed after Enter at cursor 0 makes the result 1. -/
theorem key_after_stop_changes_result :
    (handle 2 [.escape]).stopped = true ∧
      runTUI [⟨"a.xlsm", "C:\\a.xlsm"⟩, ⟨"b.xlsm", "C:\\b.xlsm"⟩] [.escape] = -1 ∧
      runTUI [⟨"a.xlsm", "C:\\a.xlsm"⟩, ⟨"b.xlsm", "C:\\b.xlsm"⟩] [.escape, .down] = 0 ∧
      mainSelect [⟨"a.xlsm", "C:\\a.xlsm"⟩, ⟨"b.xlsm", "C:\\b.xlsm"⟩] [.escape, .down]
        = .selected ⟨"a.xlsm", "C:\\a.xlsm"⟩ ∧
      runTUI [⟨"a.xlsm", "C:\\a.xlsm"⟩, ⟨"b.xlsm", "C:\\b.xlsm"⟩] [.enter] = 0 ∧
      runTUI [⟨"a.xlsm", "C:\\a.xlsm"⟩, ⟨"b.xlsm", "C:\\b.xlsm"⟩] [.enter, .down] = 1 := by
  decide


/-! ## Structure of the loop -/

theorem loopFrom_of_gt (host : Host) (join : String → String → String) (out_path : String)
    (count : Int) (fuel : Nat) (i : Int) (h : count < i) :
    loopFrom host join out_path count fuel i = [] := by
  cases fuel with
  | zero => rfl
  | succ n => simp [loopFrom]; omega

theorem loopFrom_step (host : Host) (join : String → String → String) (out_path : String)
    (count i : Int) (h : i ≤ count) :
    loopFrom host join out_path count (count + 1 - i).toNat i =
      iteration host join out_path i ++
        loopFrom host join out_path count (count - i).toNat (i + 1) := by
  have hm : (count + 1 - i).toNat = (count - i).toNat + 1 := by omega
  rw [hm]
  simp [loopFrom, h]

/-- The loop ends by its condition `i <= count`: any larger bound on the
number of iterations gives the same calls. -/
theorem loopFrom_fuel (host : Host) (join : String → String → String) (out_path : String)
    (count : Int) :
    ∀ (fuel : Nat) (i : Int), (count + 1 - i).toNat ≤ fuel →
      loopFrom host join out_path count fuel i =
        loopFrom host join out_path count (count + 1 - i).toNat i := by
  intro fuel
  induction fuel with
  | zero =>
    intro i h
    have h0 : (count + 1 - i).toNat = 0 := by omega
    rw [h0]
  | succ n ih =>
    intro i h
    by_cases hi : i ≤ count
    · have e : (count - i).toNat = (count + 1 - (i + 1)).toNat := by congr 1; omega
      rw [loopFrom_step host join out_path count i hi, e]
      simp only [loopFrom, hi, if_true]
      rw [ih (i + 1) (by omega)]
    · rw [loopFrom_of_gt host join out_path count _ i (by omega),
        loopFrom_of_gt host join out_path count _ i (by omega)]

theorem loopFrom_split (host : Host) (join : String → String → String) (out_path : String)
    (count k : Int) (hk : k ≤ count) :
    ∀ (n : Nat) (i : Int), k - i = n →
      loopFrom host join out_path count (count + 1 - i).toNat i =
        loopFrom host join out_path (k - 1) (k - i).toNat i ++
          iteration host join out_path k ++
          loopFrom host join out_path count (count - k).toNat (k + 1) := by
  intro n
  induction n with
  | zero =>
    intro i hi
    have hik : i = k := by omega
    subst hik
    rw [loopFrom_step host join out_path count i hk]
    simp [loopFrom]
  | succ n ih =>
    intro i hi
    have h1 : i ≤ count := by omega
    have h2 : i ≤ k - 1 := by omega
    have h3 := loopFrom_step host join out_path (k - 1) i h2
    have e1 : (k - 1 + 1 - i).toNat = (k - i).toNat := by congr 1; omega
    have e2 : (k - 1 - i).toNat = (k - (i + 1)).toNat := by congr 1; omega
    have e3 : (count - i).toNat = (count + 1 - (i + 1)).toNat := by congr 1; omega
    rw [e1, e2] at h3
    rw [loopFrom_step host join out_path count i h1, h3, e3, ih (i + 1) (by omega)]
    simp [List.append_assoc]

/-- The loop over `1..count` is the loop over `1..i-1`, then iteration `i`,
then the loop entered with `i+1`. -/
theorem loop_split (host : Host) (join : String → String → String) (out_path : String)
    (count i : Int) (h1 : 1 ≤ i) (h2 : i ≤ count) :
    loop host join out_path count =
      loop host join out_path (i - 1) ++ iteration host join out_path i ++
        loopFrom host join out_path count (count - i).toNat (i + 1) := by
  have h := loopFrom_split host join out_path count i h2 (i - 1).toNat 1 (by omega)
  have e1 : (count + 1 - 1).toNat = count.toNat := by congr 1; omega
  rw [e1] at h
  unfold loop
  rw [h]

theorem iterationOf_itemLevel (join : String → String → String) (out_path : String)
    (s : ItemScript) (i : Int) :
    ∀ e ∈ iterationOf s join out_path i, itemLevel e = true := by
  unfold iterationOf
  repeat' split
  all_goals simp [itemLevel]

theorem loopFrom_itemLevel (host : Host) (join : String → String → String) (out_path : String)
    (count : Int) :
    ∀ (fuel : Nat) (i : Int), ∀ e ∈ loopFrom host join out_path count fuel i,
      itemLevel e = true := by
  intro fuel
  induction fuel with
  | zero => intro i e he; simp [loopFrom] at he
  | succ n ih =>
    intro i e he
    unfold loopFrom at he
    split at he
    · rcases List.mem_append.mp he with h | h
      · exact iterationOf_itemLevel join out_path _ i e h
      · exact ih _ e h
    · simp at he

/-! ## Per-component behaviour -/

/-- Claim C2: when every read of component `i` succeeds with a non-zero line
count, the loop runs iteration `i` between the iterations before and after
it, whatever happens at the other indices, and that iteration issues exactly
one write: to `filepath.Join(out_path, name + ext)` with the bytes of the
text. -/
theorem write_for_readable_component (host : Host) (join : String → String → String)
    (out_path : String) (count i : Int) (name code : String) (typeVal lines : Int)
    (h1 : 1 ≤ i) (h2 : i ≤ count)
    (hitem : (host.item i).item = .value ()) (hname : (host.item i).name = some name)
    (htype : (host.item i).type = some typeVal)
    (hcm : (host.item i).codeModule = .value ())
    (hcol : (host.item i).countOfLines = some lines) (hlines : lines ≠ 0)
    (htext : (host.item i).lines = .value code) :
    loop host join out_path count =
        loop host join out_path (i - 1) ++ iteration host join out_path i ++
          loopFrom host join out_path count (count - i).toNat (i + 1) ∧
      (iteration host join out_path i).filter isWrite =
        [.writeFile (join out_path (name ++ extOf typeVal)) (goBytes code) 0o644] := by
  refine ⟨loop_split host join out_path count i h1 h2, ?_⟩
  simp only [iteration, iterationOf, hitem, hname, htype, hcm, hcol, htext, hlines, if_false]
  cases (host.item i).write <;> simp [isWrite]

/-- Witness of `write_for_readable_component`: the item at index 1 fails to
be fetched, the item at index 2 is the standard module `Module2`. -/
theorem write_for_readable_component_witness :
    (iteration (okHost 2 fun i =>
        if i = 1 then { okItem "" 0 0 "" with item := .error }
        else okItem "Module2" 1 3 "a\nb\nc")
      filepathJoin "C:\\out" 2).filter isWrite =
      [.writeFile (filepathJoin "C:\\out" ("Module2" ++ extOf 1)) (goBytes "a\nb\nc") 0o644] :=
  (write_for_readable_component
    (okHost 2 fun i =>
      if i = 1 then { okItem "" 0 0 "" with item := .error }
      else okItem "Module2" 1 3 "a\nb\nc")
    filepathJoin "C:\\out" 2 2 "Module2" "a\nb\nc" 1 3 (by decide) (by decide)
    rfl rfl rfl rfl rfl (by decide) rfl).2

/-- Claim C3, refuted: on a workbook whose only component has three lines of
code and a failing `Type` read, a full run of `exportVBA` issues no write at
all. -/
theorem kind_failure_no_write :
    hostKindFails.count = some 1 ∧ (hostKindFails.item 1).item = .value () ∧
      (hostKindFails.item 1).name = some "Sheet1" ∧ (hostKindFails.item 1).type = none ∧
      (hostKindFails.item 1).codeModule = .value () ∧
      (hostKindFails.item 1).countOfLines = some 3 ∧
      (hostKindFails.item 1).lines = .value "Sub A()\nEnd Sub\n" ∧
      (exportVBA hostKindFails filepathJoin "C:\\Book1.xlsm" "C:\\out").returned = true ∧
      (exportVBA hostKindFails filepathJoin "C:\\Book1.xlsm" "C:\\out").trace.filter isWrite
        = [] := by
  decide

/-- Claim C3, amended: when the `Type` read of a fetched and named component
fails, the iteration releases the component handle and ends: no code module
is requested, nothing is written, and the loop goes on with the next
index. -/
theorem kind_failure_skips (host : Host) (join : String → String → String)
    (out_path : String) (count i : Int) (name : String)
    (h1 : 1 ≤ i) (h2 : i ≤ count)
    (hitem : (host.item i).item = .value ()) (hname : (host.item i).name = some name)
    (htype : (host.item i).type = none) :
    loop host join out_path count =
        loop host join out_path (i - 1) ++ iteration host join out_path i ++
          loopFrom host join out_path count (count - i).toNat (i + 1) ∧
      iteration host join out_path i =
        [.callMethod .components "Item" [.int i], .getProperty (.comp i) "Name" [],
         .getProperty (.comp i) "Type" [], .release (.comp i)] := by
  refine ⟨loop_split host join out_path count i h1 h2, ?_⟩
  simp only [iteration, iterationOf, hitem, hname, htype]

/-- Witness of `kind_failure_skips` on `hostKindFails`. -/
theorem kind_failure_skips_witness :
    iteration hostKindFails filepathJoin "C:\\out" 1 =
      [.callMethod .components "Item" [.int 1], .getProperty (.comp 1) "Name" [],
       .getProperty (.comp 1) "Type" [], .release (.comp 1)] :=
  (kind_failure_skips hostKindFails filepathJoin "C:\\out" 1 1 "Sheet1"
    (by decide) (by decide) rfl rfl rfl).2

/-- Claim C4: a component whose line count is 0 gets no `Lines` read and no
write in its iteration, and the loop goes on with the next index. -/
theorem zero_lines_no_write (host : Host) (join : String → String → String)
    (out_path : String) (count i : Int) (h1 : 1 ≤ i) (h2 : i ≤ count)
    (hcol : (host.item i).countOfLines = some 0) :
    loop host join out_path count =
        loop host join out_path (i - 1) ++ iteration host join out_path i ++
          loopFrom host join out_path count (count - i).toNat (i + 1) ∧
      (iteration host join out_path i).filter (fun e => isWrite e || isLinesRead e) = [] := by
  refine ⟨loop_split host join out_path count i h1 h2, ?_⟩
  simp only [iteration, iterationOf, hcol, if_true]
  repeat' split
  all_goals simp [isWrite, isLinesRead]

/-- Witness of `zero_lines_no_write`: the empty module `Module1` at index 1. -/
theorem zero_lines_no_write_witness :
    (iteration (okHost 2 fun i =>
        if i = 1 then okItem "Module1" 1 0 "" else okItem "Module2" 1 3 "a\nb\nc")
      filepathJoin "C:\\out" 1).filter (fun e => isWrite e || isLinesRead e) = [] :=
  (zero_lines_no_write
    (okHost 2 fun i =>
      if i = 1 then okItem "Module1" 1 0 "" else okItem "Module2" 1 3 "a\nb\nc")
    filepathJoin "C:\\out" 2 1 (by decide) (by decide) rfl).2

/-- Claim C7: in every iteration and for every outcome of its calls, the
releases are: the code module handle if its request was issued and
succeeded, then the component handle if the fetch succeeded; nothing else
is released, and none twice. -/
theorem iteration_releases (s : ItemScript) (join : String → String → String)
    (out_path : String) (i : Int) :
    (iterationOf s join out_path i).filter isRelease =
      (if Event.getProperty (.comp i) "CodeModule" [] ∈ iterationOf s join out_path i ∧
          s.codeModule.ok = true then [Event.release (.codeMod i)] else []) ++
      (if s.item.ok = true then [Event.release (.comp i)] else []) := by
  obtain ⟨item, name, type, cm, col, lines, write⟩ := s
  cases item <;> cases name <;> cases type <;> cases cm <;> cases col <;>
    simp [iterationOf, isRelease, OleResult.ok]
  all_goals split
  all_goals (try split)
  all_goals (try split)
  all_goals simp [isRelease]

/-! ## Session -/

/-- A run without fatal step: the opening calls, the loop, the two closing
calls, the deferred calls. -/
theorem exportVBA_of_ok (host : Host) (join : String → String → String)
    (path out_path : String) (count : Int)
    (h1 : host.coInitialize = true) (h2 : host.createObject = true)
    (h3 : host.queryInterface = true) (h4 : host.workbooks.ok = true)
    (h5 : host.openWorkbook.ok = true) (h6 : host.vbProject.ok = true)
    (h7 : host.vbComponents.ok = true) (h8 : host.count = some count) :
    exportVBA host join path out_path =
      ⟨opening path ++ loop host join out_path count ++ closing ++ deferred, true⟩ := by
  simp [exportVBA, opening, h1, h2, h3, h4, h5, h6, h7, h8]

theorem count_loop_eq_zero (host : Host) (join : String → String → String)
    (out_path : String) (count : Int) (e : Event) (he : itemLevel e = false) :
    (loop host join out_path count).count e = 0 := by
  apply List.count_eq_zero_of_not_mem
  intro hmem
  have := loopFrom_itemLevel host join out_path count _ _ e hmem
  rw [he] at this
  exact Bool.false_ne_true this

/-- Claim C5: when no session-level step is fatal, whatever happens inside
the loop, the calls after the loop are `Close(false)` on the workbook, `Quit`
on the application, the releases of `wb`, `excelDisp` and `excelObj`, then
`CoUninitialize` (followed only by `UnlockOSThread`), and each of these six
calls occurs exactly once in the run. -/
theorem teardown_after_loop (host : Host) (join : String → String → String)
    (path out_path : String) (count : Int)
    (h1 : host.coInitialize = true) (h2 : host.createObject = true)
    (h3 : host.queryInterface = true) (h4 : host.workbooks.ok = true)
    (h5 : host.openWorkbook.ok = true) (h6 : host.vbProject.ok = true)
    (h7 : host.vbComponents.ok = true) (h8 : host.count = some count) :
    (exportVBA host join path out_path).returned = true ∧
      (exportVBA host join path out_path).trace =
        opening path ++ loop host join out_path count ++
          [.callMethod .wb "Close" [.bool false], .callMethod .excelDisp "Quit" [],
           .release .wb, .release .excelDisp, .release .excelObj, .coUninit,
           .unlockOSThread] ∧
      ∀ e ∈ [Event.callMethod .wb "Close" [.bool false], .callMethod .excelDisp "Quit" [],
          .release .wb, .release .excelDisp, .release .excelObj, .coUninit],
        (exportVBA host join path out_path).trace.count e = 1 := by
  rw [exportVBA_of_ok host join path out_path count h1 h2 h3 h4 h5 h6 h7 h8]
  refine ⟨rfl, by simp [closing, deferred], ?_⟩
  intro e he
  simp only [List.mem_cons, List.mem_singleton, List.not_mem_nil, or_false] at he
  rcases he with h | h | h | h | h | h <;> subst h <;>
    simp [List.count_append, count_loop_eq_zero, itemLevel, opening, configure, closing,
      deferred, List.count_cons]

/-- Witness of `teardown_after_loop` on the workbook with one failing
component. -/
theorem teardown_after_loop_witness :
    (exportVBA hostKindFails filepathJoin "C:\\Book1.xlsm" "C:\\out").returned = true ∧
      (exportVBA hostKindFails filepathJoin "C:\\Book1.xlsm" "C:\\out").trace.count
        (.release .wb) = 1 :=
  have h := teardown_after_loop hostKindFails filepathJoin "C:\\Book1.xlsm" "C:\\out" 1
    rfl rfl rfl rfl rfl rfl rfl rfl
  ⟨h.1, h.2.2 _ (by simp)⟩

/-- In a run that returns, the handles `workbooks`, `vbproj` and `components`
are never released. -/
theorem collection_handles_not_released (host : Host) (join : String → String → String)
    (path out_path : String) (count : Int)
    (h1 : host.coInitialize = true) (h2 : host.createObject = true)
    (h3 : host.queryInterface = true) (h4 : host.workbooks.ok = true)
    (h5 : host.openWorkbook.ok = true) (h6 : host.vbProject.ok = true)
    (h7 : host.vbComponents.ok = true) (h8 : host.count = some count) :
    ∀ e ∈ [Event.release .workbooks, .release .vbproj, .release .components],
      (exportVBA host join path out_path).trace.count e = 0 := by
  rw [exportVBA_of_ok host join path out_path count h1 h2 h3 h4 h5 h6 h7 h8]
  intro e he
  simp only [List.mem_cons, List.mem_singleton, List.not_mem_nil, or_false] at he
  rcases he with h | h | h <;> subst h <;>
    simp [List.count_append, count_loop_eq_zero, itemLevel, opening, configure, closing,
      deferred, List.count_cons]

/-- Claim C6, evaluated: on a workbook without components the run returns;
the handles `workbooks`, `vbproj` and `components` have been obtained and are
released zero times, while `excelObj`, `excelDisp` and `wb` are released
once. -/
theorem collection_handles_leak :
    (exportVBA hostEmpty filepathJoin "C:\\Book1.xlsm" "C:\\out").returned = true ∧
      (hostEmpty.workbooks.ok = true ∧ hostEmpty.vbProject.ok = true ∧
        hostEmpty.vbComponents.ok = true) ∧
      (exportVBA hostEmpty filepathJoin "C:\\Book1.xlsm" "C:\\out").trace.filter isRelease
        = [.release .wb, .release .excelDisp, .release .excelObj] := by
  decide

/-! ## Output file names -/

/-- Claim C8, refuted: a standard module and a class module both named
`Utils` are written to two different paths. -/
theorem same_name_different_paths :
    (hostUtils.item 1).name = (hostUtils.item 2).name ∧
      (hostUtils.item 1).type = some 1 ∧ (hostUtils.item 2).type = some 2 ∧
      (exportVBA hostUtils filepathJoin "C:\\Book1.xlsm" "C:\\out").trace.filter isWrite =
        [.writeFile "C:\\out\\Utils.bas.vbs" (goBytes "a") 0o644,
         .writeFile "C:\\out\\Utils.cls.vbs" (goBytes "b") 0o644] ∧
      filepathJoin "C:\\out" ("Utils" ++ extOf 1) ≠
        filepathJoin "C:\\out" ("Utils" ++ extOf 2) := by
  decide

theorem filesAfter_cons (onFail : Files → String → List UInt8 → Files) (e : Event)
    (rest : List Event) (fs : Files) :
    ∃ fs1, filesAfter onFail fs (e :: rest) = filesAfter onFail fs1 rest := by
  cases e <;> exact ⟨_, rfl⟩

theorem filesAfter_append (onFail : Files → String → List UInt8 → Files)
    (t u : List Event) :
    ∀ fs, ∃ fs1, filesAfter onFail fs (t ++ u) = filesAfter onFail fs1 u := by
  induction t with
  | nil => intro fs; exact ⟨fs, rfl⟩
  | cons e t ih =>
    intro fs
    obtain ⟨fs1, h1⟩ := filesAfter_cons onFail e (t ++ u) fs
    obtain ⟨fs2, h2⟩ := ih fs1
    exact ⟨fs2, by rw [List.cons_append, h1, h2]⟩

/-- Claim C8, amended: when components `i < j` have the same name and kinds
with the same extension and all their reads succeed, the one write of
iteration `i` and the one write of iteration `j` carry the same filename;
iteration `i` runs before iteration `j` in the loop, and if the write of `j`
succeeds the file holds the text of `j` once the loop has passed `j`. -/
theorem same_extension_collides (host : Host) (join : String → String → String)
    (out_path : String) (count i j : Int) (name c1 c2 : String) (k1 k2 l1 l2 : Int)
    (h1 : 1 ≤ i) (hij : i < j) (h2 : j ≤ count) (hext : extOf k1 = extOf k2)
    (hitem1 : (host.item i).item = .value ()) (hname1 : (host.item i).name = some name)
    (htype1 : (host.item i).type = some k1) (hcm1 : (host.item i).codeModule = .value ())
    (hcol1 : (host.item i).countOfLines = some l1) (hl1 : l1 ≠ 0)
    (htext1 : (host.item i).lines = .value c1)
    (hitem2 : (host.item j).item = .value ()) (hname2 : (host.item j).name = some name)
    (htype2 : (host.item j).type = some k2) (hcm2 : (host.item j).codeModule = .value ())
    (hcol2 : (host.item j).countOfLines = some l2) (hl2 : l2 ≠ 0)
    (htext2 : (host.item j).lines = .value c2) (hwrite2 : (host.item j).write = true) :
    (iteration host join out_path i).filter isWrite =
        [.writeFile (join out_path (name ++ extOf k1)) (goBytes c1) 0o644] ∧
      (iteration host join out_path j).filter isWrite =
        [.writeFile (join out_path (name ++ extOf k1)) (goBytes c2) 0o644] ∧
      loop host join out_path count =
        loop host join out_path (j - 1) ++ iteration host join out_path j ++
          loopFrom host join out_path count (count - j).toNat (j + 1) ∧
      loop host join out_path (j - 1) =
        loop host join out_path (i - 1) ++ iteration host join out_path i ++
          loopFrom host join out_path (j - 1) (j - 1 - i).toNat (i + 1) ∧
      ∀ (onFail : Files → String → List UInt8 → Files) (fs : Files),
        filesAfter onFail fs
          (loop host join out_path (j - 1) ++ iteration host join out_path j)
          (join out_path (name ++ extOf k1)) = some (goBytes c2) := by
  refine ⟨?_, ?_, loop_split host join out_path count j (by omega) h2,
    loop_split host join out_path (j - 1) i h1 (by omega), ?_⟩
  · simp only [iteration, iterationOf, hitem1, hname1, htype1, hcm1, hcol1, htext1, hl1,
      if_false]
    cases (host.item i).write <;> simp [isWrite]
  · simp only [iteration, iterationOf, hitem2, hname2, htype2, hcm2, hcol2, htext2, hl2,
      hwrite2, if_false, if_true, hext]
    simp [isWrite]
  · intro onFail fs
    obtain ⟨fs1, hfs⟩ := filesAfter_append onFail (loop host join out_path (j - 1))
      (iteration host join out_path j) fs
    rw [hfs]
    simp only [iteration, iterationOf, hitem2, hname2, htype2, hcm2, hcol2, htext2, hl2,
      hwrite2, if_false, if_true, hext]
    simp [filesAfter, writeSucceeded, writeFile]

/-- Witness of `same_extension_collides` on `hostSheets`: both components are
written to `Sheet1.vbs`. -/
theorem same_extension_collides_witness :
    (iteration hostSheets filepathJoin "C:\\out" 1).filter isWrite =
        [.writeFile (filepathJoin "C:\\out" ("Sheet1" ++ extOf 100)) (goBytes "a") 0o644] ∧
      (iteration hostSheets filepathJoin "C:\\out" 2).filter isWrite =
        [.writeFile (filepathJoin "C:\\out" ("Sheet1" ++ extOf 100)) (goBytes "b") 0o644] :=
  have h := same_extension_collides hostSheets filepathJoin "C:\\out" 2 1 2 "Sheet1" "a" "b"
    100 11 1 1 (by decide) (by decide) (by decide) (by decide)
    rfl rfl rfl rfl rfl (by decide) rfl rfl rfl rfl rfl rfl (by decide) rfl rfl
  ⟨h.1, h.2.1⟩

end ExportExcelVBA
